import Mathlib

/-!
Shallow embedding of the feature-description renderer of
src/featuretools/feature_base/feature_description_runon.py.

Conventions of the embedding:

* Python strings are Lean strings; upper/lower casing is modelled at the ASCII
  level (Char.toUpper / Char.toLower), matching str.upper / str.lower on the
  ASCII identifiers this module manipulates.
* A Python value that is either a string or None is an Option String
  (none = None).  Python str.format renders None as "None" (pyFormatOpt).
* A raised Python exception is Except.error carrying the exception's name;
  normal return is Except.ok.  The renderer never catches exceptions, so
  every translated function simply propagates .error.
* A Python dict is an association list looked up by first match (dget / dmem);
  the dict-union expression of the source, with later mappings winning on key
  collision, is dmerge.
* The external feature-object model (FeatureBase and subclasses, primitives,
  entities, relationships - out of scope per the spec, consumed through the
  accessors of spec section 6) is modelled as plain data below.  Feature
  objects used as dict keys compare by the library's name-and-entity based
  feature equality for identity features (a reconstructed identity feature
  over the same column is the same key) and by an opaque numeric tag for all
  other features.  The library's unique_name() of an identity feature is a
  fixed function of its entity id and column name (identUniqueName).
* The recursion of generate_description is fuel-indexed (fuel is structural
  recursion depth; the Python tree walk always terminates on the acyclic
  feature trees of the library, and every theorem below is uniform in fuel).
-/

deriving instance DecidableEq for Except

/-- An entity (table) of the external data model: its id and its declared index
column, the two accessors the source reads (feature.entity.id,
feature.entity.index). -/
structure Entity where
  id : String
  index : String
deriving DecidableEq

/-- One hop of a relationship path.  The source reads
relationship_path[-1][1].parent_entity.id and ....child_entity.id, i.e. only the
two entity ids of the hop's relationship object, so the hop is modelled as that
pair of ids. -/
structure RelHop where
  parent_entity : String
  child_entity : String
deriving DecidableEq

/-- A primitive of the external model: an opaque object identity tag (pid), its
name, its literal filter value (read in where clauses), and its own
description-rendering capability get_description(input_descriptions, slice_num,
template_override), which is out of scope and therefore an arbitrary function.
Its inputs are Option String because Python passes the raw recursion results,
which can be None. -/
structure Primitive where
  pid : Nat
  name : String
  value : String
  get_description : List (Option String) → Option Nat → Option String → String

/-- A node of the feature tree, one constructor per feature kind the source
dispatches on via isinstance.  Non-identity features carry an opaque object
identity tag (fid) and their precomputed unique_name() string (uname); identity
features are identified by entity and column name (see FeatId). -/
inductive Feature where
  | identity (entity : Entity) (colName : String)
  | direct (fid : Nat) (uname : String) (relationship_path : List RelHop)
      (entity_id : String) (bases : List Feature)
  | aggregation (fid : Nat) (uname : String) (prim : Primitive)
      (bases : List Feature) (relationship_path : List RelHop)
      (use_previous : Option String) (whereF : Option Feature) (entity : Entity)
  | transform (fid : Nat) (uname : String) (prim : Primitive) (bases : List Feature)
  | groupbyTransform (fid : Nat) (uname : String) (prim : Primitive) (bases : List Feature)
  | outputSlice (fid : Nat) (uname : String) (prim : Primitive) (base_feature : Feature) (n : Nat)

/-- Identity of a feature object when used as a dict key.  The library compares
features by a hash of their name and entity, so an identity feature freshly
reconstructed over the same column (as get_aggregation_groupby does) is the
same key as the caller's; every other feature is keyed by its opaque tag. -/
inductive FeatId where
  | ident (entityId : String) (colName : String)
  | node (n : Nat)
deriving DecidableEq

/-- A key of the feature_descriptions dict: either a feature object or a
unique-name string (the dict may mix both, and a feature never compares equal
to a string). -/
inductive FKey where
  | fid (i : FeatId)
  | uname (s : String)
deriving DecidableEq

/-- A key of the primitive_templates dict: either a primitive object (by its
opaque identity tag) or a primitive-name string. -/
inductive PKey where
  | pidK (n : Nat)
  | nameK (s : String)
deriving DecidableEq

/-- The feature_descriptions override mapping. -/
abbrev FDict := List (FKey × String)

/-- The primitive_templates override mapping. -/
abbrev PDict := List (PKey × String)

/-- Python dict lookup d.get(k): value of the first matching key, else None. -/
def dget {κ : Type} [DecidableEq κ] (d : List (κ × String)) (k : κ) : Option String :=
  (d.find? (fun kv => decide (kv.1 = k))).map (fun kv => kv.2)

/-- Python membership test k in d. -/
def dmem {κ : Type} [DecidableEq κ] (d : List (κ × String)) (k : κ) : Bool :=
  (d.find? (fun kv => decide (kv.1 = k))).isSome

/-- Python dict union of base with ovr, ovr winning on key collision
(the source's double-star merge of the file mappings with the caller
mappings).  With first-match lookup, putting ovr first gives exactly the
union's lookup behaviour. -/
def dmerge {κ : Type} (base ovr : List (κ × String)) : List (κ × String) :=
  ovr ++ base

/-- Python `a or b` on string-or-None values: a if a is a non-empty (truthy)
string, else b. -/
def pyOr (a b : Option String) : Option String :=
  match a with
  | none => b
  | some s => if s = "" then b else some s

/-- Python str.format of a string-or-None value: None renders as "None". -/
def pyFormatOpt : Option String → String
  | none => "None"
  | some s => s

/-- Python sep.join(l). -/
def pyJoin (sep : String) : List String → String
  | [] => ""
  | [x] => x
  | x :: rest => x ++ sep ++ pyJoin sep rest

/-- The source's final join: single spaces between the phrases that are not the
empty string, in list order (line "description = ' '.join([phrase for phrase in
description_template if phrase != ''])"). -/
def pyJoinNonempty (l : List String) : String :=
  pyJoin " " (l.filter (fun s => s != ""))

/-- The library's unique_name() of an identity feature, modelled as a fixed
injective-enough function of its entity id and column name (external accessor,
exact format irrelevant to this module). -/
def identUniqueName (entityId colName : String) : String :=
  entityId ++ ": " ++ colName

/-- Dict-key identity of a feature (see FeatId). -/
def Feature.featId : Feature → FeatId
  | .identity e c => .ident e.id c
  | .direct i _ _ _ _ => .node i
  | .aggregation i _ _ _ _ _ _ _ => .node i
  | .transform i _ _ _ => .node i
  | .groupbyTransform i _ _ _ => .node i
  | .outputSlice i _ _ _ _ => .node i

/-- The feature's unique_name() accessor. -/
def Feature.uniqueName : Feature → String
  | .identity e c => identUniqueName e.id c
  | .direct _ u _ _ _ => u
  | .aggregation _ u _ _ _ _ _ _ => u
  | .transform _ u _ _ => u
  | .groupbyTransform _ u _ _ => u
  | .outputSlice _ u _ _ _ => u

/-- The feature's base_features accessor (ordered children). -/
def Feature.base_features : Feature → List Feature
  | .identity _ _ => []
  | .direct _ _ _ _ bs => bs
  | .aggregation _ _ _ bs _ _ _ _ => bs
  | .transform _ _ _ bs => bs
  | .groupbyTransform _ _ _ bs => bs
  | .outputSlice _ _ _ bf _ => [bf]

/-- The feature's primitive accessor; none models the kinds on which the
source never reads .primitive (reading it there would be a collaborator
contract violation, surfaced as AttributeError). -/
def Feature.primitiveOf : Feature → Option Primitive
  | .identity _ _ => none
  | .direct _ _ _ _ _ => none
  | .aggregation _ _ p _ _ _ _ _ => some p
  | .transform _ _ p _ => some p
  | .groupbyTransform _ _ p _ => some p
  | .outputSlice _ _ p _ _ => some p

/-- hasattr(feature, 'where') and feature.where: only aggregation features
carry a where sub-feature, and None is falsy. -/
def Feature.whereOf : Feature → Option Feature
  | .aggregation _ _ _ _ _ _ w _ => w
  | _ => none

/-- The feature's entity accessor, where the source uses it
(get_aggregation_groupby); identity features also carry their entity. -/
def Feature.entityOf : Feature → Option Entity
  | .identity e _ => some e
  | .aggregation _ _ _ _ _ _ _ e => some e
  | _ => none

/-- isinstance(feature, IdentityFeature). -/
def Feature.isIdentity : Feature → Bool
  | .identity _ _ => true
  | _ => false

/-- isinstance(feature, DirectFeature). -/
def Feature.isDirect : Feature → Bool
  | .direct _ _ _ _ _ => true
  | _ => false

/-- isinstance(feature, AggregationFeature). -/
def Feature.isAggregation : Feature → Bool
  | .aggregation _ _ _ _ _ _ _ _ => true
  | _ => false

/-- isinstance(feature, GroupByTransformFeature). -/
def Feature.isGroupbyTransform : Feature → Bool
  | .groupbyTransform _ _ _ _ => true
  | _ => false

/-- isinstance(feature, FeatureOutputSlice). -/
def Feature.isOutputSlice : Feature → Bool
  | .outputSlice _ _ _ _ _ => true
  | _ => false

/-- feature.n of a sliced-output wrapper, None otherwise. -/
def slice_num_of : Feature → Option Nat
  | .outputSlice _ _ _ _ n => some n
  | _ => none

/-- The rebinding `feature = feature.base_feature` applied to sliced-output
wrappers before the groupby/entity/where steps. -/
def unwrap_slice : Feature → Feature
  | .outputSlice _ _ _ bf _ => bf
  | f => f

/-- The source's repeated two-step override lookup
`if feature in fd or feature.unique_name() in fd:
     fd.get(feature) or fd.get(feature.unique_name())`:
some result when either key is present (the result selected by Python
truthiness, hence possibly none = None), none when neither key is present. -/
def lookup_override (fd : FDict) (f : Feature) : Option (Option String) :=
  if dmem fd (FKey.fid f.featId) || dmem fd (FKey.uname f.uniqueName) then
    some (pyOr (dget fd (FKey.fid f.featId)) (dget fd (FKey.uname f.uniqueName)))
  else none

/-- The template_override lookup of the source:
`if feature.primitive in pt or feature.primitive.name in pt:
     template_override = pt.get(feature.primitive) or pt.get(...name)`
(template_override stays None when absent, and also when every present value
is falsy, exactly as the Python or-chain). -/
def lookup_primitive_override (pt : PDict) (p : Primitive) : Option String :=
  if dmem pt (PKey.pidK p.pid) || dmem pt (PKey.nameK p.name) then
    pyOr (dget pt (PKey.pidK p.pid)) (dget pt (PKey.nameK p.name))
  else none

/-- The while loop of get_direct_description: while base_features[0] is a
DirectFeature, prepend its parent-entity fragment and descend into its
base_features; on a non-direct head, return it with the accumulated phrase.
base_features [] gives the IndexError of base_features[0], an empty
relationship path the IndexError of relationship_path[-1]. -/
def unwindDirect : List Feature → String → Except String (Feature × String)
  | [], _ => .error "IndexError"
  | b :: _, acc =>
    match b with
    | .direct _ _ relationship_path _ bases =>
      match relationship_path.getLast? with
      | none => .error "IndexError"
      | some r =>
        unwindDirect bases
          (" the instance of \"" ++ r.parent_entity ++ "\" associated with" ++ acc)
    | _ => .ok (b, acc)
termination_by l _ => sizeOf l
decreasing_by
  simp_wf
  omega

/-- get_direct_description(feature): seed the phrase from the root's last
relationship hop and owning entity id, unwind the chain of direct base
features, then prefix " of"; returns the first non-direct base feature and the
phrase. -/
def get_direct_description (f : Feature) : Except String (Feature × String) :=
  match f with
  | .direct _ _ relationship_path entity_id bases =>
    match relationship_path.getLast? with
    | none => .error "IndexError"
    | some r =>
      match unwindDirect bases
          (" the instance of \"" ++ r.parent_entity ++
           "\" associated with this instance of \"" ++ entity_id ++ "\"") with
      | .error e => .error e
      | .ok (b, acc) => .ok (b, " of" ++ acc)
  | _ => .error "AttributeError"

/-- get_aggregation_groupby(feature, feature_descriptions): build the synthetic
identity feature over the entity's index column, consult the override mapping
(by the feature key, then its unique name, selected by truthiness); a selected
None crashes on None.startswith (AttributeError); a string has a leading
"the " stripped; with no override, render the quoted index column and entity
id. -/
def get_aggregation_groupby (f : Feature) (fd : FDict) : Except String String :=
  match f.entityOf with
  | none => .error "AttributeError"
  | some ent =>
    match lookup_override fd (Feature.identity ent ent.index) with
    | some none => .error "AttributeError"
    | some (some description) =>
      if description.startsWith "the " then .ok (description.drop 4)
      else .ok description
    | none => .ok ("\"" ++ ent.index ++ "\" in \"" ++ ent.id ++ "\"")

/-- The literal mutable default of get_aggregation_groupby's
feature_descriptions parameter (`feature_descriptions={}` in the source): the
one dict object shared by every call that omits the argument. -/
def gag_default_arg : FDict := []

/-- State-passing form of get_aggregation_groupby: the override mapping is
threaded through and handed back, making mutation of the shared default dict
observable.  The translation returns the mapping unchanged on every path
because no statement of the source writes to it. -/
def get_aggregation_groupby_st (f : Feature) (fd : FDict) :
    Except String String × FDict :=
  match f.entityOf with
  | none => (.error "AttributeError", fd)
  | some ent =>
    match lookup_override fd (Feature.identity ent ent.index) with
    | some none => (.error "AttributeError", fd)
    | some (some description) =>
      if description.startsWith "the " then (.ok (description.drop 4), fd)
      else (.ok description, fd)
    | none => (.ok ("\"" ++ ent.index ++ "\" in \"" ++ ent.id ++ "\""), fd)

/-- Step 6 of generate_description: the aggregation entity phrase.  Empty for
non-aggregations; for aggregations, the use-previous window prefix (window
name lowercased) or "of all instances of ", followed by the double-quoted
child entity id of the last relationship hop. -/
def entity_description (f : Feature) : Except String String :=
  match f with
  | .aggregation _ _ _ _ relationship_path use_previous _ _ =>
    let lead := match use_previous with
      | some w => "of the previous " ++ w.toLower ++ " of "
      | none => "of all instances of "
    match relationship_path.getLast? with
    | none => .error "IndexError"
    | some r => .ok (lead ++ "\"" ++ r.child_entity ++ "\"")
  | _ => .ok ""

/-- Step 7 of generate_description: the where phrase, parameterised by the
recursive description function g.  Reads feature.where.primitive.value first,
then resolves the where column: override lookup on the where feature (selected
by truthiness, a None result formatting as "None"), else recursion into the
where feature's first base feature. -/
def where_clause (g : Feature → Except String (Option String)) (f : Feature)
    (fd : FDict) : Except String String :=
  match f.whereOf with
  | none => .ok ""
  | some w =>
    match w.primitiveOf with
    | none => .error "AttributeError"
    | some wprim =>
      let wcol : Except String (Option String) :=
        match lookup_override fd w with
        | some d => .ok d
        | none =>
          match w.base_features.head? with
          | none => .error "IndexError"
          | some b => g b
      match wcol with
      | .error e => .error e
      | .ok c => .ok ("where " ++ pyFormatOpt c ++ " is " ++ wprim.value)

/-- The input-description loop: describe each input column in order with g,
propagating the first exception. -/
def describe_list (g : Feature → Except String (Option String)) :
    List Feature → Except String (List (Option String))
  | [] => .ok []
  | c :: rest =>
    match g c with
    | .error e => .error e
    | .ok d =>
      match describe_list g rest with
      | .error e => .error e
      | .ok ds => .ok (d :: ds)

/-- Python list.pop(): the list without its last element, and that element;
none on an empty list (IndexError at the call site). -/
def popLast {α : Type} : List α → Option (List α × α)
  | [] => none
  | [a] => some ([], a)
  | a :: rest =>
    match popLast rest with
    | none => none
    | some (ini, la) => some (a :: ini, la)

/-- Steps 4a-4c of generate_description: choose the input columns (the wrapped
base feature's for a sliced-output wrapper), describe them all, and for a
group-by transform pop the last description off as the group-by phrase. -/
def input_phrases (g : Feature → Except String (Option String)) (f : Feature) :
    Except String (List (Option String) × Option (Option String)) :=
  let cols := match f with
    | .outputSlice _ _ _ bf _ => bf.base_features
    | _ => f.base_features
  match describe_list g cols with
  | .error e => .error e
  | .ok ids =>
    match f with
    | .groupbyTransform _ _ _ _ =>
      match popLast ids with
      | none => .error "IndexError"
      | some (ini, la) => .ok (ini, some la)
    | _ => .ok (ids, none)

/-- Steps 4d-4e: slice index, template override and the primitive's own phrase
fragment feature.primitive.get_description(inputs, slice_num,
template_override). -/
def primitive_fragment (f : Feature) (pt : PDict) (inputs : List (Option String)) :
    Except String String :=
  match f.primitiveOf with
  | none => .error "AttributeError"
  | some prim =>
    .ok (prim.get_description inputs (slice_num_of f) (lookup_primitive_override pt prim))

/-- Step 4f on the unwrapped feature: "for each " plus the group-by name of an
aggregation (via get_aggregation_groupby) or the popped group-by phrase of a
group-by transform (None formatting as "None"; the popped phrase is unbound -
UnboundLocalError - when the wrapper hid the group-by transform from the pop
step). -/
def groupby_phrase (f2 : Feature) (fd : FDict) (gdescOpt : Option (Option String)) :
    Except String String :=
  if f2.isAggregation then
    match get_aggregation_groupby f2 fd with
    | .error e => .error e
    | .ok gn => .ok ("for each " ++ gn)
  else if f2.isGroupbyTransform then
    match gdescOpt with
    | none => .error "UnboundLocalError"
    | some gd => .ok ("for each " ++ pyFormatOpt gd)
  else .ok ""

/-- The general (non-identity, non-direct, non-overridden) case of
generate_description, parameterised by the recursive description function g:
inputs, primitive fragment, slice unwrap, group-by phrase, entity phrase,
where phrase, then the space-join of the non-empty phrases in the source's
fixed order. -/
def general_case (g : Feature → Except String (Option String)) (f : Feature)
    (fd : FDict) (pt : PDict) : Except String (Option String) :=
  match input_phrases g f with
  | .error e => .error e
  | .ok (inputs, gdescOpt) =>
    match primitive_fragment f pt inputs with
    | .error e => .error e
    | .ok primDesc =>
      let f2 := unwrap_slice f
      match groupby_phrase f2 fd gdescOpt with
      | .error e => .error e
      | .ok groupby =>
        match entity_description f2 with
        | .error e => .error e
        | .ok entityDesc =>
          match where_clause g f2 fd with
          | .error e => .error e
          | .ok whereDesc =>
            .ok (some (pyJoinNonempty [primDesc, entityDesc, whereDesc, groupby]))

/-- generate_description(feature, feature_descriptions, primitive_templates),
fuel-indexed.  Rule order as in the source: the override branch (returning the
truthiness-selected value, possibly None), the identity rendering, the
direct-feature unwinding (concatenating the base description - a None base
description raises TypeError on the Python string concatenation), then the
general case. -/
def generate_description : Nat → Feature → FDict → PDict → Except String (Option String)
  | 0, _, _, _ => .error "RecursionError"
  | fuel + 1, f, fd, pt =>
    match lookup_override fd f with
    | some d => .ok d
    | none =>
      match f with
      | .identity _ colName => .ok (some ("the \"" ++ colName ++ "\""))
      | .direct i u rp eid bs =>
        match get_direct_description (.direct i u rp eid bs) with
        | .error e => .error e
        | .ok (baseF, dd) =>
          match generate_description fuel baseF fd pt with
          | .error e => .error e
          | .ok none => .error "TypeError"
          | .ok (some s) => .ok (some (s ++ dd))
      | _ => general_case (fun c => generate_description fuel c fd pt) f fd pt

/-- The parsed content of the metadata json file: up to two recognised
top-level keys, each a mapping of string keys to strings (json object keys are
strings). -/
structure JsonMetadata where
  feature_descriptions : Option (List (String × String))
  primitive_templates : Option (List (String × String))

/-- json_metadata.get('feature_descriptions', defaulting to the empty mapping),
injected into the renderer's dict as unique-name string keys. -/
def file_feature_descriptions (j : JsonMetadata) : FDict :=
  (j.feature_descriptions.getD []).map (fun kv => (FKey.uname kv.1, kv.2))

/-- json_metadata.get('primitive_templates', defaulting to the empty mapping),
injected as primitive-name string keys. -/
def file_primitive_templates (j : JsonMetadata) : PDict :=
  (j.primitive_templates.getD []).map (fun kv => (PKey.nameK kv.1, kv.2))

/-- parse_json_metadata(file).  The file read and json parse (open + json.load)
are external I/O, modelled by the readJson argument: an exception there (file
missing, unreadable, invalid json) is propagated unchanged, a parsed document
yields the two extracted mappings. -/
def parse_json_metadata (readJson : String → Except String JsonMetadata)
    (file : String) : Except String (FDict × PDict) :=
  match readJson file with
  | .error e => .error e
  | .ok j => .ok (file_feature_descriptions j, file_primitive_templates j)

/-- The metadata step of describe_feature: with no (or an empty, hence falsy)
metadata path the caller mappings are used as given; otherwise the file
mappings are loaded and each is merged under the caller's, the caller value
winning on key collision (`fd = dict-union of file fd then fd` in the
source). -/
def load_and_merge (readJson : String → Except String JsonMetadata)
    (metadataFile : Option String) (fd : FDict) (pt : PDict) :
    Except String (FDict × PDict) :=
  match metadataFile with
  | none => .ok (fd, pt)
  | some path =>
    if path = "" then .ok (fd, pt)
    else
      match parse_json_metadata readJson path with
      | .error e => .error e
      | .ok (ffd, fpt) => .ok (dmerge ffd fd, dmerge fpt pt)

/-- The Python expression description[:1].upper() + description[1:] (ASCII
level: upper of a one-character string is Char.toUpper). -/
def pyCapitalizeFirst (s : String) : String :=
  match s.data with
  | [] => ""
  | c :: cs => String.mk (c.toUpper :: cs)

/-- describe_feature(feature, feature_descriptions, primitive_templates,
metadata_file).  Absent (None) caller mappings and empty ones are both the
empty association list, so the source's falsy-to-empty normalisation is the
identity here.  A None result of generate_description crashes on the slice
None[:1] (TypeError, None is not subscriptable); a string result is
capitalized and terminated with a period. -/
def describe_feature (readJson : String → Except String JsonMetadata)
    (fuel : Nat) (f : Feature) (fd : FDict) (pt : PDict)
    (metadataFile : Option String) : Except String String :=
  match load_and_merge readJson metadataFile fd pt with
  | .error e => .error e
  | .ok (fd2, pt2) =>
    match generate_description fuel f fd2 pt2 with
    | .error e => .error e
    | .ok none => .error "TypeError"
    | .ok (some description) => .ok (pyCapitalizeFirst description ++ ".")

/-! ### Helper lemmas -/

theorem data_append (a b : String) : (a ++ b).data = a.data ++ b.data := by
  cases a
  cases b
  rfl

theorem str_eq_of_data {a b : String} (h : a.data = b.data) : a = b := by
  cases a
  cases b
  exact congrArg String.mk h

theorem str_merge (a b c : String) (h : a ++ b = c) (X : String) :
    a ++ (b ++ X) = c ++ X := by
  rw [← String.append_assoc, h]

theorem char_toNat_ofNat (m : Nat) (h : m.isValidChar) : (Char.ofNat m).toNat = m := by
  rw [Char.ofNat, dif_pos h]
  rfl

theorem toUpper_idem (c : Char) : c.toUpper.toUpper = c.toUpper := by
  by_cases h : c.toNat ≥ 97 ∧ c.toNat ≤ 122
  · have hv : (c.toNat - 32).isValidChar := Or.inl (by omega)
    simp only [Char.toUpper]
    rw [if_pos h, char_toNat_ofNat _ hv, if_neg (by omega)]
  · simp only [Char.toUpper]
    rw [if_neg h, if_neg h]

theorem dmem_of_dget {κ : Type} [DecidableEq κ] (d : List (κ × String)) (k : κ)
    (v : String) (h : dget d k = some v) : dmem d k = true := by
  unfold dget at h
  unfold dmem
  cases hf : d.find? (fun kv => decide (kv.1 = k)) with
  | none => rw [hf] at h; simp at h
  | some kv => simp [hf]

theorem dget_none_of_dmem_false {κ : Type} [DecidableEq κ] (d : List (κ × String))
    (k : κ) (h : dmem d k = false) : dget d k = none := by
  unfold dmem at h
  unfold dget
  cases hf : d.find? (fun kv => decide (kv.1 = k)) with
  | none => simp
  | some kv => rw [hf] at h; simp at h

theorem dget_dmerge {κ : Type} [DecidableEq κ] (b o : List (κ × String)) (k : κ)
    (h : dmem o k = true) : dget (dmerge b o) k = dget o k := by
  unfold dmem at h
  unfold dget dmerge
  induction o with
  | nil => simp at h
  | cons kv rest ih =>
    simp only [List.cons_append, List.find?]
    cases hp : decide (kv.1 = k) with
    | true => rfl
    | false =>
      simp only [List.find?, hp] at h
      exact ih h

theorem lookup_override_of_dget_fid (fd : FDict) (f : Feature) (v : String)
    (h : dget fd (FKey.fid f.featId) = some v) :
    lookup_override fd f =
      some (pyOr (some v) (dget fd (FKey.uname f.uniqueName))) := by
  unfold lookup_override
  rw [dmem_of_dget _ _ _ h, h]
  simp

/-! ### Claim theorems -/

/-- C2 (counterexample): a feature whose identity key maps to the empty string
is a key of the mapping, yet generate_description does not return that mapped
string verbatim: the Python or-chain skips the falsy value and, with no
unique-name entry, returns None. -/
theorem override_verbatim_counterexample :
    generate_description 1 (Feature.identity ⟨"customers", "id"⟩ "age")
        [(FKey.fid (FeatId.ident "customers" "age"), "")] [] = .ok none ∧
      dget [(FKey.fid (FeatId.ident "customers" "age"), "")]
        (FKey.fid (Feature.identity ⟨"customers", "id"⟩ "age").featId) = some "" := by
  constructor
  · decide
  · decide

/-- C2 (amended): whenever the feature itself or its unique-name string is a
key of the description-override mapping, generate_description returns, with no
further recursion (the equation is uniform in the remaining fuel, so no
recursive call is made) and regardless of the feature's kind or children, the
value selected by the source's or-chain: the identity-keyed value if it is a
non-empty string, else the unique-name-keyed value if that is a non-empty
string, else None.  In particular the mapped string is returned verbatim
whenever the selected value is non-empty. -/
theorem override_branch_returns_selected :
    ∀ (fuel : Nat) (f : Feature) (fd : FDict) (pt : PDict),
      (dmem fd (FKey.fid f.featId) || dmem fd (FKey.uname f.uniqueName)) = true →
      generate_description (fuel + 1) f fd pt =
        .ok (pyOr (dget fd (FKey.fid f.featId)) (dget fd (FKey.uname f.uniqueName))) := by
  intro fuel f fd pt hmem
  simp only [generate_description, lookup_override, hmem, if_true]

theorem override_branch_returns_selected_witness :
    (dmem [(FKey.uname "customers: age", "the customer age")]
        (FKey.fid (Feature.identity ⟨"customers", "id"⟩ "age").featId) ||
      dmem [(FKey.uname "customers: age", "the customer age")]
        (FKey.uname (Feature.identity ⟨"customers", "id"⟩ "age").uniqueName)) = true ∧
    generate_description 4 (Feature.identity ⟨"customers", "id"⟩ "age")
        [(FKey.uname "customers: age", "the customer age")] [] =
      .ok (pyOr
        (dget [(FKey.uname "customers: age", "the customer age")]
          (FKey.fid (Feature.identity ⟨"customers", "id"⟩ "age").featId))
        (dget [(FKey.uname "customers: age", "the customer age")]
          (FKey.uname (Feature.identity ⟨"customers", "id"⟩ "age").uniqueName))) :=
  ⟨by decide,
    override_branch_returns_selected 3 (Feature.identity ⟨"customers", "id"⟩ "age")
      [(FKey.uname "customers: age", "the customer age")] [] (by decide)⟩

/-- C3: on every key collision the directly-passed mapping wins over the
mapping loaded from the metadata file, for feature_descriptions and for
primitive_templates alike; the merged pair used for rendering is exactly the
dict-union with the caller mappings second. -/
theorem caller_mappings_win :
    (∀ (ffd cfd : FDict) (k : FKey), dmem cfd k = true →
      dget (dmerge ffd cfd) k = dget cfd k) ∧
    (∀ (fpt cpt : PDict) (k : PKey), dmem cpt k = true →
      dget (dmerge fpt cpt) k = dget cpt k) ∧
    (∀ (rj : String → Except String JsonMetadata) (path : String) (j : JsonMetadata)
        (fd : FDict) (pt : PDict), path ≠ "" → rj path = .ok j →
      load_and_merge rj (some path) fd pt =
        .ok (dmerge (file_feature_descriptions j) fd,
             dmerge (file_primitive_templates j) pt)) := by
  refine ⟨?_, ?_, ?_⟩
  · intro ffd cfd k h
    exact dget_dmerge ffd cfd k h
  · intro fpt cpt k h
    exact dget_dmerge fpt cpt k h
  · intro rj path j fd pt hpath hrj
    simp only [load_and_merge, parse_json_metadata]
    rw [if_neg hpath, hrj]

theorem caller_mappings_win_witness :
    (dmem [(FKey.uname "k", "caller")] (FKey.uname "k") = true ∧
      dget (dmerge [(FKey.uname "k", "file")] [(FKey.uname "k", "caller")])
          (FKey.uname "k") =
        dget [(FKey.uname "k", "caller")] (FKey.uname "k")) ∧
    (dmem [(PKey.nameK "mean", "caller t")] (PKey.nameK "mean") = true ∧
      dget (dmerge [(PKey.nameK "mean", "file t")] [(PKey.nameK "mean", "caller t")])
          (PKey.nameK "mean") =
        dget [(PKey.nameK "mean", "caller t")] (PKey.nameK "mean")) ∧
    load_and_merge (fun _ => .ok ⟨some [("k", "file")], none⟩) (some "meta.json")
        [(FKey.uname "k", "caller")] [] =
      .ok (dmerge (file_feature_descriptions ⟨some [("k", "file")], none⟩)
             [(FKey.uname "k", "caller")],
           dmerge (file_primitive_templates ⟨some [("k", "file")], none⟩) []) :=
  ⟨⟨by decide, caller_mappings_win.1 [(FKey.uname "k", "file")]
      [(FKey.uname "k", "caller")] (FKey.uname "k") (by decide)⟩,
   ⟨by decide, caller_mappings_win.2.1 [(PKey.nameK "mean", "file t")]
      [(PKey.nameK "mean", "caller t")] (PKey.nameK "mean") (by decide)⟩,
   caller_mappings_win.2.2 (fun _ => .ok ⟨some [("k", "file")], none⟩) "meta.json"
      ⟨some [("k", "file")], none⟩ [(FKey.uname "k", "caller")] []
      (by decide) rfl⟩

/-- C8: when a metadata file path is given (a truthy, i.e. non-empty, path)
and the read or json parse fails, describe_feature propagates that very error
unchanged - no default mappings are substituted and no description is
produced. -/
theorem metadata_error_propagates :
    ∀ (rj : String → Except String JsonMetadata) (fuel : Nat) (f : Feature)
      (fd : FDict) (pt : PDict) (path e : String),
      path ≠ "" → rj path = .error e →
      describe_feature rj fuel f fd pt (some path) = .error e := by
  intro rj fuel f fd pt path e hpath hrj
  simp only [describe_feature, load_and_merge, parse_json_metadata]
  rw [if_neg hpath, hrj]

theorem metadata_error_propagates_witness :
    describe_feature (fun _ => .error "FileNotFoundError") 3
        (Feature.identity ⟨"customers", "id"⟩ "age") [] [] (some "meta.json") =
      .error "FileNotFoundError" :=
  metadata_error_propagates (fun _ => .error "FileNotFoundError") 3
    (Feature.identity ⟨"customers", "id"⟩ "age") [] [] "meta.json"
    "FileNotFoundError" (by decide) rfl

/-- C9: the renderer mutates neither the feature tree nor the caller-supplied
override mappings - the whole translation is pure, and in the state-passing
form of get_aggregation_groupby (whose Python default argument is one shared
mutable dict object, gag_default_arg) the mapping comes back unchanged on
every path, its result agrees with the pure form, and a call using the shared
default behaves exactly like a call with a fresh empty mapping. -/
theorem no_mutation_of_override_mappings :
    (∀ (f : Feature) (fd : FDict),
      get_aggregation_groupby_st f fd = (get_aggregation_groupby f fd, fd)) ∧
    (∀ f : Feature,
      get_aggregation_groupby f gag_default_arg = get_aggregation_groupby f []) := by
  constructor
  · intro f fd
    rcases hE : f.entityOf with _ | ent <;>
      simp only [get_aggregation_groupby_st, get_aggregation_groupby, hE]
    rcases hL : lookup_override fd (Feature.identity ent ent.index) with _ | (_ | dsc) <;>
      simp only [hL]
    by_cases h : dsc.startsWith "the " <;> simp [h]
  · intro f
    rfl

/-- C5: the entity clause of an aggregation feature with a use-previous window
is "of the previous " plus the lowercased window name plus " of " plus the
double-quoted child-entity id of the last relationship-path hop; without a
window it is "of all instances of " plus that same quoted id; and for every
non-aggregation feature the entity clause is empty. -/
theorem entity_clause_spec :
    (∀ (i : Nat) (u : String) (pr : Primitive) (bs : List Feature)
        (rp : List RelHop) (up : String) (w : Option Feature) (ent : Entity)
        (r : RelHop), rp.getLast? = some r →
      entity_description (.aggregation i u pr bs rp (some up) w ent) =
        .ok ("of the previous " ++ up.toLower ++ " of " ++ "\"" ++
          r.child_entity ++ "\"")) ∧
    (∀ (i : Nat) (u : String) (pr : Primitive) (bs : List Feature)
        (rp : List RelHop) (w : Option Feature) (ent : Entity)
        (r : RelHop), rp.getLast? = some r →
      entity_description (.aggregation i u pr bs rp none w ent) =
        .ok ("of all instances of " ++ "\"" ++ r.child_entity ++ "\"")) ∧
    (∀ f : Feature, f.isAggregation = false → entity_description f = .ok "") := by
  refine ⟨?_, ?_, ?_⟩
  · intro i u pr bs rp up w ent r h
    simp only [entity_description, h]
  · intro i u pr bs rp w ent r h
    simp only [entity_description, h]
  · intro f h
    cases f <;> simp_all [Feature.isAggregation, entity_description]

theorem entity_clause_spec_witness :
    ([⟨"customers", "transactions"⟩] : List RelHop).getLast? =
        some ⟨"customers", "transactions"⟩ ∧
    entity_description (.aggregation 3 "u3" ⟨1, "mean", "", fun _ _ _ => ""⟩ []
        [⟨"customers", "transactions"⟩] (some "3 Days") none ⟨"customers", "id"⟩) =
      .ok ("of the previous " ++ ("3 Days").toLower ++ " of " ++ "\"" ++
        "transactions" ++ "\"") ∧
    entity_description (.aggregation 3 "u3" ⟨1, "mean", "", fun _ _ _ => ""⟩ []
        [⟨"customers", "transactions"⟩] none none ⟨"customers", "id"⟩) =
      .ok ("of all instances of " ++ "\"" ++ "transactions" ++ "\"") ∧
    (Feature.identity ⟨"customers", "id"⟩ "age").isAggregation = false ∧
    entity_description (Feature.identity ⟨"customers", "id"⟩ "age") = .ok "" :=
  ⟨by decide,
   entity_clause_spec.1 3 "u3" ⟨1, "mean", "", fun _ _ _ => ""⟩ []
     [⟨"customers", "transactions"⟩] "3 Days" none ⟨"customers", "id"⟩
     ⟨"customers", "transactions"⟩ (by decide),
   entity_clause_spec.2.1 3 "u3" ⟨1, "mean", "", fun _ _ _ => ""⟩ []
     [⟨"customers", "transactions"⟩] none ⟨"customers", "id"⟩
     ⟨"customers", "transactions"⟩ (by decide),
   by decide,
   entity_clause_spec.2.2 (Feature.identity ⟨"customers", "id"⟩ "age") (by decide)⟩

/-- C7: for every aggregation feature the group-by name phrase is the override
found for the synthetic identity feature over the aggregation entity's index
column (checked by the feature key, then its unique name), with a leading
"the " stripped when present; and with no such override it is the
double-quoted index column, " in ", and the double-quoted entity id. -/
theorem aggregation_groupby_spec :
    (∀ (fd : FDict) (i : Nat) (u : String) (pr : Primitive) (bs : List Feature)
        (rp : List RelHop) (up : Option String) (w : Option Feature)
        (ent : Entity) (d : String),
      lookup_override fd (Feature.identity ent ent.index) = some (some d) →
      get_aggregation_groupby (.aggregation i u pr bs rp up w ent) fd =
        .ok (if d.startsWith "the " then d.drop 4 else d)) ∧
    (∀ (fd : FDict) (i : Nat) (u : String) (pr : Primitive) (bs : List Feature)
        (rp : List RelHop) (up : Option String) (w : Option Feature)
        (ent : Entity),
      lookup_override fd (Feature.identity ent ent.index) = none →
      get_aggregation_groupby (.aggregation i u pr bs rp up w ent) fd =
        .ok ("\"" ++ ent.index ++ "\" in \"" ++ ent.id ++ "\"")) := by
  constructor
  · intro fd i u pr bs rp up w ent d h
    simp only [get_aggregation_groupby, Feature.entityOf, h]
    by_cases hc : d.startsWith "the " <;> simp [hc]
  · intro fd i u pr bs rp up w ent h
    simp only [get_aggregation_groupby, Feature.entityOf, h]

theorem aggregation_groupby_spec_witness :
    lookup_override [(FKey.fid (FeatId.ident "customers" "id"), "the \"id\"")]
        (Feature.identity ⟨"customers", "id"⟩ (Entity.index ⟨"customers", "id"⟩)) =
      some (some "the \"id\"") ∧
    get_aggregation_groupby
        (.aggregation 3 "u3" ⟨1, "mean", "", fun _ _ _ => ""⟩ []
          [⟨"customers", "transactions"⟩] none none ⟨"customers", "id"⟩)
        [(FKey.fid (FeatId.ident "customers" "id"), "the \"id\"")] =
      .ok (if ("the \"id\"").startsWith "the " then ("the \"id\"").drop 4
           else "the \"id\"") ∧
    get_aggregation_groupby
        (.aggregation 3 "u3" ⟨1, "mean", "", fun _ _ _ => ""⟩ []
          [⟨"customers", "transactions"⟩] none none ⟨"customers", "id"⟩) [] =
      .ok ("\"" ++ "id" ++ "\" in \"" ++ "customers" ++ "\"") :=
  ⟨by decide,
   aggregation_groupby_spec.1 [(FKey.fid (FeatId.ident "customers" "id"), "the \"id\"")]
     3 "u3" ⟨1, "mean", "", fun _ _ _ => ""⟩ [] [⟨"customers", "transactions"⟩]
     none none ⟨"customers", "id"⟩ "the \"id\"" (by decide),
   aggregation_groupby_spec.2 [] 3 "u3" ⟨1, "mean", "", fun _ _ _ => ""⟩ []
     [⟨"customers", "transactions"⟩] none none ⟨"customers", "id"⟩ (by decide)⟩

/-- C10: the override lookups test key presence but select the value by Python
truthiness.  A feature whose identity key maps to the empty string does not
get that value back: generate_description returns the unique-name-keyed value
when one is present and None (not the empty string) when it is absent; the
where-clause lookup likewise skips the falsy identity-keyed value (a selected
None formats as "None" in the where phrase); and the group-by lookup with the
same shape selects None and crashes on None.startswith (AttributeError). -/
theorem override_lookup_truthiness :
    (∀ (fuel : Nat) (f : Feature) (fd : FDict) (pt : PDict),
      dget fd (FKey.fid f.featId) = some "" →
      dmem fd (FKey.uname f.uniqueName) = false →
      generate_description (fuel + 1) f fd pt = .ok none) ∧
    (∀ (fuel : Nat) (f : Feature) (fd : FDict) (pt : PDict) (s : String),
      dget fd (FKey.fid f.featId) = some "" →
      dget fd (FKey.uname f.uniqueName) = some s → s ≠ "" →
      generate_description (fuel + 1) f fd pt = .ok (some s)) ∧
    (∀ (g : Feature → Except String (Option String)) (f w : Feature)
        (fd : FDict) (wprim : Primitive),
      f.whereOf = some w → w.primitiveOf = some wprim →
      dget fd (FKey.fid w.featId) = some "" →
      dmem fd (FKey.uname w.uniqueName) = false →
      where_clause g f fd = .ok ("where None is " ++ wprim.value)) ∧
    (∀ (fd : FDict) (i : Nat) (u : String) (pr : Primitive) (bs : List Feature)
        (rp : List RelHop) (up : Option String) (w : Option Feature)
        (ent : Entity),
      dget fd (FKey.fid (FeatId.ident ent.id ent.index)) = some "" →
      dmem fd (FKey.uname (identUniqueName ent.id ent.index)) = false →
      get_aggregation_groupby (.aggregation i u pr bs rp up w ent) fd =
        .error "AttributeError") := by
  refine ⟨?_, ?_, ?_, ?_⟩
  · intro fuel f fd pt h1 h2
    have hlo := lookup_override_of_dget_fid fd f "" h1
    rw [dget_none_of_dmem_false fd _ h2] at hlo
    have hpy : pyOr (some "") none = none := rfl
    rw [hpy] at hlo
    simp only [generate_description, hlo]
  · intro fuel f fd pt s h1 h2 hs
    have hlo := lookup_override_of_dget_fid fd f "" h1
    rw [h2] at hlo
    have hpy : pyOr (some "") (some s) = some s := rfl
    rw [hpy] at hlo
    simp only [generate_description, hlo]
  · intro g f w fd wprim hw hp h1 h2
    have hlo := lookup_override_of_dget_fid fd w "" h1
    rw [dget_none_of_dmem_false fd _ h2] at hlo
    have hpy : pyOr (some "") none = none := rfl
    rw [hpy] at hlo
    simp only [where_clause, hw, hp, hlo, pyFormatOpt]
    rw [show ("where " ++ "None" ++ " is " : String) = "where None is " from rfl]
  · intro fd i u pr bs rp up w ent h1 h2
    have h1' : dget fd (FKey.fid (Feature.identity ent ent.index).featId) = some "" := h1
    have hlo := lookup_override_of_dget_fid fd (Feature.identity ent ent.index) "" h1'
    have h2' : dget fd (FKey.uname (Feature.identity ent ent.index).uniqueName) = none :=
      dget_none_of_dmem_false fd _ h2
    rw [h2'] at hlo
    have hpy : pyOr (some "") none = none := rfl
    rw [hpy] at hlo
    simp only [get_aggregation_groupby, Feature.entityOf, hlo]

theorem override_lookup_truthiness_witness :
    generate_description 3 (Feature.identity ⟨"customers", "id"⟩ "age")
        [(FKey.fid (FeatId.ident "customers" "age"), "")] [] = .ok none ∧
    generate_description 3 (Feature.identity ⟨"customers", "id"⟩ "age")
        [(FKey.fid (FeatId.ident "customers" "age"), ""),
         (FKey.uname "customers: age", "the age")] [] = .ok (some "the age") ∧
    where_clause (fun _ => .error "unused")
        (.aggregation 4 "u4" ⟨1, "count", "", fun _ _ _ => ""⟩ []
          [⟨"customers", "transactions"⟩] none
          (some (.transform 9 "u9" ⟨2, "equals", "True", fun _ _ _ => ""⟩
            [.identity ⟨"transactions", "id"⟩ "is_fraud"]))
          ⟨"customers", "id"⟩)
        [(FKey.fid (FeatId.node 9), "")] =
      .ok ("where None is " ++ Primitive.value ⟨2, "equals", "True", fun _ _ _ => ""⟩) ∧
    get_aggregation_groupby
        (.aggregation 4 "u4" ⟨1, "count", "", fun _ _ _ => ""⟩ []
          [⟨"customers", "transactions"⟩] none none ⟨"customers", "id"⟩)
        [(FKey.fid (FeatId.ident "customers" "id"), "")] =
      .error "AttributeError" :=
  ⟨override_lookup_truthiness.1 2 (Feature.identity ⟨"customers", "id"⟩ "age")
     [(FKey.fid (FeatId.ident "customers" "age"), "")] [] (by decide) (by decide),
   override_lookup_truthiness.2.1 2 (Feature.identity ⟨"customers", "id"⟩ "age")
     [(FKey.fid (FeatId.ident "customers" "age"), ""),
      (FKey.uname "customers: age", "the age")] [] "the age" (by decide) (by decide)
     (by decide),
   override_lookup_truthiness.2.2.1 (fun _ => .error "unused")
     (.aggregation 4 "u4" ⟨1, "count", "", fun _ _ _ => ""⟩ []
       [⟨"customers", "transactions"⟩] none
       (some (.transform 9 "u9" ⟨2, "equals", "True", fun _ _ _ => ""⟩
         [.identity ⟨"transactions", "id"⟩ "is_fraud"]))
       ⟨"customers", "id"⟩)
     (.transform 9 "u9" ⟨2, "equals", "True", fun _ _ _ => ""⟩
       [.identity ⟨"transactions", "id"⟩ "is_fraud"])
     [(FKey.fid (FeatId.node 9), "")] ⟨2, "equals", "True", fun _ _ _ => ""⟩
     rfl rfl (by decide) (by decide),
   override_lookup_truthiness.2.2.2 [(FKey.fid (FeatId.ident "customers" "id"), "")]
     4 "u4" ⟨1, "count", "", fun _ _ _ => ""⟩ [] [⟨"customers", "transactions"⟩]
     none none ⟨"customers", "id"⟩ (by decide) (by decide)⟩

/-- C4: in the general (non-identity, non-direct, non-overridden) case the
returned phrase is exactly the space-join, in the fixed order primitive
fragment, entity clause, where clause, group-by clause, of those clauses that
are non-empty; empty clauses are dropped by the filter before joining, so they
leave no extra spaces (second conjunct: an empty clause between two non-empty
ones contributes nothing but the single separating space). -/
theorem general_case_join :
    (∀ (fuel : Nat) (f : Feature) (fd : FDict) (pt : PDict)
        (inputs : List (Option String)) (gdo : Option (Option String))
        (p gb e w : String),
      lookup_override fd f = none →
      f.isIdentity = false →
      f.isDirect = false →
      input_phrases (fun c => generate_description fuel c fd pt) f = .ok (inputs, gdo) →
      primitive_fragment f pt inputs = .ok p →
      groupby_phrase (unwrap_slice f) fd gdo = .ok gb →
      entity_description (unwrap_slice f) = .ok e →
      where_clause (fun c => generate_description fuel c fd pt) (unwrap_slice f) fd = .ok w →
      generate_description (fuel + 1) f fd pt =
        .ok (some (pyJoinNonempty [p, e, w, gb]))) ∧
    (∀ p w : String, p ≠ "" → w ≠ "" →
      pyJoinNonempty [p, "", w, ""] = p ++ " " ++ w) := by
  constructor
  · intro fuel f fd pt inputs gdo p gb e w hov hId hDir hin hpf hgb hed hwc
    cases f with
    | identity en c => simp [Feature.isIdentity] at hId
    | direct i1 u1 rp1 eid1 bs1 => simp [Feature.isDirect] at hDir
    | aggregation i1 u1 pr1 bs1 rp1 up1 wf1 en1 =>
      simp only [generate_description, hov, general_case, hin, hpf, hgb, hed, hwc]
    | transform i1 u1 pr1 bs1 =>
      simp only [generate_description, hov, general_case, hin, hpf, hgb, hed, hwc]
    | groupbyTransform i1 u1 pr1 bs1 =>
      simp only [generate_description, hov, general_case, hin, hpf, hgb, hed, hwc]
    | outputSlice i1 u1 pr1 bf1 n1 =>
      simp only [generate_description, hov, general_case, hin, hpf, hgb, hed, hwc]
  · intro p w hp hw
    simp [pyJoinNonempty, pyJoin, hp, hw]

theorem general_case_join_witness :
    generate_description 2
        (.transform 7 "u7"
          ⟨1, "mean", "", fun ids _ _ => "the average of " ++ pyFormatOpt (ids.getD 0 none)⟩
          [.identity ⟨"transactions", "id"⟩ "amount"]) [] [] =
      .ok (some (pyJoinNonempty ["the average of the \"amount\"", "", "", ""])) ∧
    pyJoinNonempty ["a", "", "b", ""] = "a" ++ " " ++ "b" :=
  ⟨general_case_join.1 1
     (.transform 7 "u7"
       ⟨1, "mean", "", fun ids _ _ => "the average of " ++ pyFormatOpt (ids.getD 0 none)⟩
       [.identity ⟨"transactions", "id"⟩ "amount"]) [] []
     [some "the \"amount\""] none "the average of the \"amount\"" "" "" ""
     (by decide) (by decide) (by decide) (by decide) (by decide) (by decide)
     (by decide) (by decide),
   general_case_join.2 "a" "b" (by decide) (by decide)⟩

theorem unwindDirect_nondirect (g : Feature) (hg : g.isDirect = false)
    (rest : List Feature) (acc : String) :
    unwindDirect (g :: rest) acc = .ok (g, acc) := by
  cases g with
  | direct i u rp eid bs => simp [Feature.isDirect] at hg
  | identity en c => simp [unwindDirect]
  | aggregation i u pr bs rp up wf en => simp [unwindDirect]
  | transform i u pr bs => simp [unwindDirect]
  | groupbyTransform i u pr bs => simp [unwindDirect]
  | outputSlice i u pr bf n => simp [unwindDirect]

theorem unwindDirect_direct_step (i : Nat) (u : String) (rp : List RelHop)
    (eid : String) (bs : List Feature) (rest : List Feature) (r : RelHop)
    (hr : rp.getLast? = some r) (acc : String) :
    unwindDirect (Feature.direct i u rp eid bs :: rest) acc =
      unwindDirect bs
        (" the instance of \"" ++ r.parent_entity ++ "\" associated with" ++ acc) := by
  simp only [unwindDirect, hr]

/-- C6: the direct-feature unwinder returns the innermost non-direct base
feature together with the accumulated phrase: for a single hop, " of the
instance of " plus the quoted parent entity of the last relationship hop
plus " associated with this instance of " plus the quoted owning entity of the
starting feature; for a chain of two, the earlier hop's parent-entity fragment
is prepended before the innermost associated-with-this-instance clause; and
the rendered description of a direct feature is the innermost base feature's
description followed by that phrase. -/
theorem direct_unwinder_spec :
    (∀ (i : Nat) (u : String) (rp : List RelHop) (eid : String) (r : RelHop)
        (g : Feature), rp.getLast? = some r → g.isDirect = false →
      get_direct_description (.direct i u rp eid [g]) =
        .ok (g, " of the instance of \"" ++ r.parent_entity ++
          "\" associated with this instance of \"" ++ eid ++ "\"")) ∧
    (∀ (i1 : Nat) (u1 : String) (rp1 : List RelHop) (eid1 : String)
        (i2 : Nat) (u2 : String) (rp2 : List RelHop) (eid2 : String)
        (r1 r2 : RelHop) (g : Feature),
      rp1.getLast? = some r1 → rp2.getLast? = some r2 → g.isDirect = false →
      get_direct_description
          (.direct i2 u2 rp2 eid2 [.direct i1 u1 rp1 eid1 [g]]) =
        .ok (g, " of the instance of \"" ++ r1.parent_entity ++
          "\" associated with the instance of \"" ++ r2.parent_entity ++
          "\" associated with this instance of \"" ++ eid2 ++ "\"")) ∧
    (∀ (fuel : Nat) (f : Feature) (fd : FDict) (pt : PDict) (bf : Feature)
        (dd s : String),
      f.isDirect = true → lookup_override fd f = none →
      get_direct_description f = .ok (bf, dd) →
      generate_description fuel bf fd pt = .ok (some s) →
      generate_description (fuel + 1) f fd pt = .ok (some (s ++ dd))) := by
  refine ⟨?_, ?_, ?_⟩
  · intro i u rp eid r g hr hg
    simp only [get_direct_description, hr, unwindDirect_nondirect g hg]
    refine congrArg (fun x => Except.ok (g, x)) ?_
    simp only [String.append_assoc]
    rw [str_merge " of" " the instance of \"" " of the instance of \"" rfl]
  · intro i1 u1 rp1 eid1 i2 u2 rp2 eid2 r1 r2 g h1 h2 hg
    simp only [get_direct_description, h2,
      unwindDirect_direct_step i1 u1 rp1 eid1 [g] [] r1 h1,
      unwindDirect_nondirect g hg]
    refine congrArg (fun x => Except.ok (g, x)) ?_
    simp only [String.append_assoc]
    rw [str_merge " of" " the instance of \"" " of the instance of \"" rfl,
      str_merge "\" associated with" " the instance of \""
        "\" associated with the instance of \"" rfl]
  · intro fuel f fd pt bf dd s hDir hov hgdd hbase
    cases f with
    | identity en c => simp [Feature.isDirect] at hDir
    | aggregation i u pr bs rp up wf en => simp [Feature.isDirect] at hDir
    | transform i u pr bs => simp [Feature.isDirect] at hDir
    | groupbyTransform i u pr bs => simp [Feature.isDirect] at hDir
    | outputSlice i u pr bf2 n => simp [Feature.isDirect] at hDir
    | direct i u rp eid bs =>
      simp only [generate_description, hov, hgdd, hbase]

theorem direct_unwinder_spec_witness :
    get_direct_description
        (.direct 11 "u11" [⟨"customers", "sessions"⟩] "sessions"
          [.identity ⟨"customers", "cid"⟩ "age"]) =
      .ok (Feature.identity ⟨"customers", "cid"⟩ "age",
        " of the instance of \"" ++ "customers" ++
          "\" associated with this instance of \"" ++ "sessions" ++ "\"") ∧
    get_direct_description
        (.direct 12 "u12" [⟨"sessions", "transactions"⟩] "transactions"
          [.direct 11 "u11" [⟨"customers", "sessions"⟩] "sessions"
            [.identity ⟨"customers", "cid"⟩ "age"]]) =
      .ok (Feature.identity ⟨"customers", "cid"⟩ "age",
        " of the instance of \"" ++ "customers" ++
          "\" associated with the instance of \"" ++ "sessions" ++
          "\" associated with this instance of \"" ++ "transactions" ++ "\"") ∧
    generate_description 2
        (.direct 12 "u12" [⟨"sessions", "transactions"⟩] "transactions"
          [.direct 11 "u11" [⟨"customers", "sessions"⟩] "sessions"
            [.identity ⟨"customers", "cid"⟩ "age"]]) [] [] =
      .ok (some ("the \"age\"" ++
        (" of the instance of \"" ++ "customers" ++
          "\" associated with the instance of \"" ++ "sessions" ++
          "\" associated with this instance of \"" ++ "transactions" ++ "\""))) :=
  ⟨direct_unwinder_spec.1 11 "u11" [⟨"customers", "sessions"⟩] "sessions"
     ⟨"customers", "sessions"⟩ (.identity ⟨"customers", "cid"⟩ "age")
     (by decide) (by decide),
   direct_unwinder_spec.2.1 11 "u11" [⟨"customers", "sessions"⟩] "sessions"
     12 "u12" [⟨"sessions", "transactions"⟩] "transactions"
     ⟨"customers", "sessions"⟩ ⟨"sessions", "transactions"⟩
     (.identity ⟨"customers", "cid"⟩ "age") (by decide) (by decide) (by decide),
   direct_unwinder_spec.2.2 1
     (.direct 12 "u12" [⟨"sessions", "transactions"⟩] "transactions"
       [.direct 11 "u11" [⟨"customers", "sessions"⟩] "sessions"
         [.identity ⟨"customers", "cid"⟩ "age"]]) [] []
     (Feature.identity ⟨"customers", "cid"⟩ "age")
     (" of the instance of \"" ++ "customers" ++
       "\" associated with the instance of \"" ++ "sessions" ++
       "\" associated with this instance of \"" ++ "transactions" ++ "\"")
     "the \"age\"" (by decide) (by decide)
     (direct_unwinder_spec.2.1 11 "u11" [⟨"customers", "sessions"⟩] "sessions"
       12 "u12" [⟨"sessions", "transactions"⟩] "transactions"
       ⟨"customers", "sessions"⟩ ⟨"sessions", "transactions"⟩
       (.identity ⟨"customers", "cid"⟩ "age") (by decide) (by decide) (by decide))
     (by decide)⟩

/-- C1 (counterexample): for the pair of a feature and an override mapping
whose identity key maps to the empty string, describe_feature does not return
a string at all: generate_description returns None and the slice None[:1]
crashes (TypeError, None is not subscriptable), so the claim's universal
"returns a string whose first character is uppercase" fails at this input. -/
theorem describe_feature_uppercase_counterexample :
    describe_feature (fun _ => .error "E") 5 (Feature.identity ⟨"customers", "id"⟩ "age")
        [(FKey.fid (FeatId.ident "customers" "age"), "")] [] none =
      .error "TypeError" := by
  decide

/-- C1 (amended): whenever describe_feature returns a string (it instead
propagates an exception when the override machinery yields None, see C10),
that string is non-empty, its first character is unchanged by uppercasing
(capitalization is idempotent; when the generated phrase is empty the result
is the bare period), and its last character is the period. -/
theorem describe_feature_capitalized :
    ∀ (rj : String → Except String JsonMetadata) (fuel : Nat) (f : Feature)
      (fd : FDict) (pt : PDict) (mf : Option String) (s : String),
      describe_feature rj fuel f fd pt mf = .ok s →
      s.data ≠ [] ∧ s.data.head?.map Char.toUpper = s.data.head? ∧
        s.data.getLast? = some '.' := by
  intro rj fuel f fd pt mf s h
  simp only [describe_feature] at h
  rcases hl : load_and_merge rj mf fd pt with e | ⟨fd2, pt2⟩
  · rw [hl] at h
    simp at h
  simp only [hl] at h
  rcases hg : generate_description fuel f fd2 pt2 with e | d
  · rw [hg] at h
    simp at h
  simp only [hg] at h
  rcases d with _ | dsc
  · simp at h
  · simp only [Except.ok.injEq] at h
    subst h
    rcases hd : dsc.data with _ | ⟨c, cs⟩
    · have h1 : pyCapitalizeFirst dsc = "" := by simp [pyCapitalizeFirst, hd]
      rw [h1]
      exact ⟨by decide, by decide, by decide⟩
    · have h1 : (pyCapitalizeFirst dsc).data = c.toUpper :: cs := by
        simp [pyCapitalizeFirst, hd]
      have hdot : ("." : String).data = ['.'] := rfl
      refine ⟨?_, ?_, ?_⟩
      · rw [data_append, h1]
        simp
      · rw [data_append, h1, hdot]
        simp [toUpper_idem]
      · rw [data_append, h1, hdot]
        rw [show c.toUpper :: cs ++ ['.'] = (c.toUpper :: cs) ++ ['.'] from rfl,
          List.getLast?_concat]

theorem describe_feature_capitalized_witness :
    ("The \"age\".").data ≠ [] ∧
      ("The \"age\".").data.head?.map Char.toUpper = ("The \"age\".").data.head? ∧
      ("The \"age\".").data.getLast? = some '.' :=
  describe_feature_capitalized (fun _ => .error "E") 2
    (Feature.identity ⟨"customers", "id"⟩ "age") [] [] none "The \"age\"."
    (by decide)
